import Mathlib

/-!
Verification of the sequential tool-orchestration loop of
`backend/ai_generator.py` (class `AIGenerator`).

Shallow embedding: the Anthropic client (`self.client.messages.create`) is an
external oracle, modelled as a function from the call index (the number of
model calls already made in this invocation) to either a raised exception
(`Except.error msg`, the Python exception's `str(e)`) or a structured model
response.  The tool manager (`tool_manager.execute_tool`) is likewise a
function from tool name and keyword-argument list to either a raised
exception or the returned text.  Python's in-place mutation of the message
list becomes explicit value threading; the `while round_count < max_rounds`
loop becomes recursion on the remaining-round fuel `max_rounds - round_count`
(`Int.toNat` of a non-positive budget is zero, matching a loop body that
never runs).  Every model call is recorded in an ordered trace so that
call-count and parameter claims are statable.
-/

namespace AIGen

/-- A tool-use content block of a model response: `content_block.id`,
`content_block.name`, `content_block.input` (keyword arguments). -/
structure ToolUse where
  id : String
  name : String
  input : List (String × String)
deriving Repr, DecidableEq

/-- A content block of a model response: either a text block (with a `.text`
attribute) or a tool-use block (`content_block.type == "tool_use"`). -/
inductive ContentBlock where
  | text (t : String)
  | toolUse (tu : ToolUse)
deriving Repr, DecidableEq

/-- A model response: `response.stop_reason` and `response.content`. -/
structure ModelResponse where
  stop_reason : String
  content : List ContentBlock
deriving Repr, DecidableEq

/-- A `tool_result` dict built by `_handle_tool_execution_sequential`.
The Python code builds `{"type": "tool_result", "tool_use_id": ...,
"content": ...}`; it never includes an `"is_error"` key, so that optional
field is modelled as `Option Bool` and the code always constructs `none`. -/
structure ToolResult where
  tool_use_id : String
  content : String
  is_error : Option Bool
deriving Repr, DecidableEq

/-- The content of a message in the chain: the initial user message holds
plain text, an appended assistant message holds `response.content`, and an
appended user message holds a list of `tool_result` dicts. -/
inductive MContent where
  | ofText (s : String)
  | blocks (bs : List ContentBlock)
  | toolResults (rs : List ToolResult)
deriving Repr, DecidableEq

/-- One message of the chain: `{"role": ..., "content": ...}`. -/
structure Message where
  role : String
  content : MContent
deriving Repr, DecidableEq

/-- The model-provider oracle: outcome of the i-th `messages.create` call of
this invocation (`Except.error e` models the call raising, with `str(e) = e`). -/
def Provider := Nat → Except String ModelResponse

/-- The tool manager: `execute_tool(name, **kwargs)`; `Except.error e` models
the handler raising (including dispatch of an unregistered tool name). -/
def ToolManager := String → List (String × String) → Except String String

/-- Record of one model call made by the loop: whether a `tools` parameter
was passed, and the `system` and `messages` parameters. -/
structure CallRecord where
  withTools : Bool
  system : String
  messages : List Message
deriving Repr, DecidableEq

/-- Result of one invocation: the returned text, the final message chain,
the ordered trace of model calls, and the ordered list of tool-use blocks
dispatched to the tool manager. -/
structure LoopOut where
  text : String
  messages : List Message
  trace : List CallRecord
  dispatched : List ToolUse
deriving Repr, DecidableEq

/-- The static system prompt `AIGenerator.SYSTEM_PROMPT` (the class constant
built once; its exact literal wording is immaterial to every claim, which
treat it as the opaque base instruction, so only its first sentence is
reproduced here). -/
def SYSTEM_PROMPT : String :=
  " You are an AI assistant specialized in course materials and educational content with access to comprehensive search and outline tools for course information."

/-- `response.content[0].text`: raises `IndexError` on an empty content list
and `AttributeError` when the first block is a tool-use block. -/
def firstText : List ContentBlock → Except String String
  | [] => Except.error "list index out of range"
  | ContentBlock.text t :: _ => Except.ok t
  | ContentBlock.toolUse _ :: _ => Except.error "ToolUseBlock object has no attribute text"

/-- The tool-use blocks of a content list, in order (the blocks the dispatch
loop `for content_block in response.content: if content_block.type ==
"tool_use"` iterates over). -/
def toolUses : List ContentBlock → List ToolUse
  | [] => []
  | ContentBlock.text _ :: rest => toolUses rest
  | ContentBlock.toolUse tu :: rest => tu :: toolUses rest

/-- The dispatch loop of `_handle_tool_execution_sequential`: for every
tool-use block, call `tool_manager.execute_tool(name, **input)`; on success
append a `tool_result` with the returned text, on a raised exception append a
`tool_result` with content `"Tool execution failed: " ++ str(e)` and set the
`execution_success` flag to `False`.  Returns `(tool_results,
execution_success)`. -/
def runTools (tm : ToolManager) : List ContentBlock → List ToolResult × Bool
  | [] => ([], true)
  | ContentBlock.text _ :: rest => runTools tm rest
  | ContentBlock.toolUse tu :: rest =>
      let acc := runTools tm rest
      match tm tu.name tu.input with
      | Except.ok r =>
          (ToolResult.mk tu.id r none :: acc.1, acc.2)
      | Except.error e =>
          (ToolResult.mk tu.id ("Tool execution failed: " ++ e) none :: acc.1, false)

/-- `_handle_tool_execution_sequential`: append the assistant's tool-use
response to the chain, run all tool dispatches, and append the collected
`tool_results` as a single user message (only when non-empty, per
`if tool_results:`).  Returns `(updated_messages, success_flag)`. -/
def handle_tool_execution_sequential (tm : ToolManager) (response : ModelResponse)
    (messages : List Message) : List Message × Bool :=
  let ms := messages ++ [Message.mk "assistant" (MContent.blocks response.content)]
  let tr := runTools tm response.content
  (if tr.1 = [] then ms else ms ++ [Message.mk "user" (MContent.toolResults tr.1)], tr.2)

/-- The `while round_count < max_rounds` loop of `_execute_sequential_rounds`,
by recursion on the remaining rounds (`fuel = max_rounds - round_count`).
`trace` accumulates the model calls already made, so `trace.length` is the
index of the next provider call.  The `fuel = 0` case is the post-loop
"max rounds reached" final call without tools (its own try/except produces
`"Error generating final response: ..."`); inside an iteration a provider
failure, or a `.content[0].text` failure, is caught by the iteration's
try/except as `"Error generating response: ..."`; a round whose tool
execution fails makes one immediate final no-tool call inside that same
try block. -/
def execLoop (provider : Provider) (tm : ToolManager) (sys : String) :
    Nat → List Message → List CallRecord → List ToolUse → LoopOut
  | 0, messages, trace, disp =>
      match provider trace.length with
      | Except.error e =>
          LoopOut.mk ("Error generating final response: " ++ e) messages
            (trace ++ [CallRecord.mk false sys messages]) disp
      | Except.ok fr =>
          match firstText fr.content with
          | Except.error e =>
              LoopOut.mk ("Error generating final response: " ++ e) messages
                (trace ++ [CallRecord.mk false sys messages]) disp
          | Except.ok t =>
              LoopOut.mk t messages (trace ++ [CallRecord.mk false sys messages]) disp
  | fuel + 1, messages, trace, disp =>
      match provider trace.length with
      | Except.error e =>
          LoopOut.mk ("Error generating response: " ++ e) messages
            (trace ++ [CallRecord.mk true sys messages]) disp
      | Except.ok response =>
          if response.stop_reason ≠ "tool_use" then
            match firstText response.content with
            | Except.error e =>
                LoopOut.mk ("Error generating response: " ++ e) messages
                  (trace ++ [CallRecord.mk true sys messages]) disp
            | Except.ok t =>
                LoopOut.mk t messages (trace ++ [CallRecord.mk true sys messages]) disp
          else
            let hres := handle_tool_execution_sequential tm response messages
            let disp2 := disp ++ toolUses response.content
            if hres.2 then
              execLoop provider tm sys fuel hres.1
                (trace ++ [CallRecord.mk true sys messages]) disp2
            else
              match provider (trace.length + 1) with
              | Except.error e =>
                  LoopOut.mk ("Error generating response: " ++ e) hres.1
                    (trace ++ [CallRecord.mk true sys messages,
                               CallRecord.mk false sys hres.1]) disp2
              | Except.ok fr =>
                  match firstText fr.content with
                  | Except.error e =>
                      LoopOut.mk ("Error generating response: " ++ e) hres.1
                        (trace ++ [CallRecord.mk true sys messages,
                                   CallRecord.mk false sys hres.1]) disp2
                  | Except.ok t =>
                      LoopOut.mk t hres.1
                        (trace ++ [CallRecord.mk true sys messages,
                                   CallRecord.mk false sys hres.1]) disp2

/-- `_execute_sequential_rounds(messages, system_content, tools, tool_manager,
max_rounds)`: run the round loop starting from `round_count = 0`.  A
non-positive `max_rounds` gives a loop body that never runs. -/
def execute_sequential_rounds (provider : Provider) (tm : ToolManager)
    (sys : String) (messages : List Message) (max_rounds : Int) : LoopOut :=
  execLoop provider tm sys max_rounds.toNat messages [] []

/-- The system-content construction of `generate_response`: the static base
prompt, plus a labeled previous-conversation section when
`conversation_history` is truthy (neither `None` nor the empty string). -/
def build_system (conversation_history : Option String) : String :=
  match conversation_history with
  | some h =>
      if h ≠ "" then SYSTEM_PROMPT ++ "\n\nPrevious conversation:\n" ++ h
      else SYSTEM_PROMPT
  | none => SYSTEM_PROMPT

/-- `generate_response(query, conversation_history, tools, tool_manager,
max_rounds)`.  When `tools` is a non-empty list and `tool_manager` is not
`None`, delegate to `_execute_sequential_rounds` (which always returns a
string).  Otherwise make a single model call with no `tools` parameter and
return `response.content[0].text`; this path has no try/except, so a raised
exception propagates out (`Except.error`). -/
def generate_response (provider : Provider) (query : String)
    (conversation_history : Option String) (tools : List String)
    (tool_manager : Option ToolManager) (max_rounds : Int) :
    Except String LoopOut :=
  let system_content := build_system conversation_history
  let messages := [Message.mk "user" (MContent.ofText query)]
  match tool_manager, tools with
  | some tm, _ :: _ =>
      Except.ok (execute_sequential_rounds provider tm system_content messages max_rounds)
  | _, _ =>
      match provider 0 with
      | Except.error e => Except.error e
      | Except.ok response =>
          match firstText response.content with
          | Except.error e => Except.error e
          | Except.ok t =>
              Except.ok (LoopOut.mk t messages
                [CallRecord.mk false system_content messages] [])

/-- Whether a tool dispatch returned normally (did not raise). -/
def exOK : Except String String → Bool
  | Except.ok _ => true
  | Except.error _ => false

/-- Whether every tool dispatch of a content list succeeds under `tm`. -/
def dispatchAllOK (tm : ToolManager) (bs : List ContentBlock) : Bool :=
  (toolUses bs).all fun tu => exOK (tm tu.name tu.input)

/-- Whether a provider outcome is a successful response that requests tool
use and whose every tool dispatch succeeds under `tm` (the condition under
which the loop proceeds to the next round). -/
def roundOK (tm : ToolManager) : Except String ModelResponse → Bool
  | Except.error _ => false
  | Except.ok r => r.stop_reason == "tool_use" && dispatchAllOK tm r.content

/- Concrete scenario instances used by witnesses and counterexamples. -/

/-- A concrete tool-use block. -/
def tuA : ToolUse := ToolUse.mk "toolu_01" "search_course_content" [("query", "q")]

/-- A concrete model response requesting tool use. -/
def respTool : ModelResponse := ModelResponse.mk "tool_use" [ContentBlock.toolUse tuA]

/-- A concrete plain-text model response. -/
def respText : ModelResponse := ModelResponse.mk "end_turn" [ContentBlock.text "final answer"]

/-- A provider returning tool-use responses for the first two calls and a
text response afterwards. -/
def provTT : Provider := fun i => if i < 2 then Except.ok respTool else Except.ok respText

/-- A provider returning a tool-use response on the first call and a text
response afterwards. -/
def provT1 : Provider := fun i => if i = 0 then Except.ok respTool else Except.ok respText

/-- A provider returning only the plain-text response. -/
def provText : Provider := fun _ => Except.ok respText

/-- A provider whose every call raises. -/
def provFail : Provider := fun _ => Except.error "connection error"

/-- A tool manager whose every dispatch succeeds. -/
def tmOK : ToolManager := fun _ _ => Except.ok "search results"

/-- A tool manager whose every dispatch raises. -/
def tmFail : ToolManager := fun _ _ => Except.error "backend unreachable"

/-! ### Helper lemmas about the tool-dispatch phase -/

/-- The `execution_success` flag equals "every dispatch succeeded". -/
theorem runTools_snd (tm : ToolManager) :
    ∀ bs : List ContentBlock, (runTools tm bs).2 = dispatchAllOK tm bs
  | [] => rfl
  | ContentBlock.text _ :: rest => runTools_snd tm rest
  | ContentBlock.toolUse tu :: rest => by
      simp only [runTools, dispatchAllOK, toolUses, List.all_cons]
      cases h : tm tu.name tu.input with
      | ok r =>
          simpa [h, exOK, dispatchAllOK] using runTools_snd tm rest
      | error e => simp [h, exOK]

/-- The collected `tool_results` carry exactly the ids of the response's
tool-use blocks, in order. -/
theorem runTools_map_id (tm : ToolManager) :
    ∀ bs : List ContentBlock,
      (runTools tm bs).1.map ToolResult.tool_use_id = (toolUses bs).map ToolUse.id
  | [] => rfl
  | ContentBlock.text _ :: rest => runTools_map_id tm rest
  | ContentBlock.toolUse tu :: rest => by
      simp only [runTools, toolUses, List.map_cons]
      cases h : tm tu.name tu.input with
      | ok r => simpa [h] using runTools_map_id tm rest
      | error e => simpa [h] using runTools_map_id tm rest

/-- A raised dispatch of block `tu` is captured among the results as a
`tool_result` with matching id, the failure-string content, and no
`is_error` key. -/
theorem runTools_mem_error (tm : ToolManager) :
    ∀ (bs : List ContentBlock) (tu : ToolUse) (e : String),
      tu ∈ toolUses bs → tm tu.name tu.input = Except.error e →
      ToolResult.mk tu.id ("Tool execution failed: " ++ e) none ∈ (runTools tm bs).1
  | [], tu, e, htu, _ => absurd htu (by simp [toolUses])
  | ContentBlock.text _ :: rest, tu, e, htu, he =>
      runTools_mem_error tm rest tu e (by simpa [toolUses] using htu) he
  | ContentBlock.toolUse tu0 :: rest, tu, e, htu, he => by
      simp only [toolUses, List.mem_cons] at htu
      simp only [runTools]
      rcases htu with heq | hmem
      · subst heq
        rw [he]
        exact List.mem_cons_self _ _
      · have ih := runTools_mem_error tm rest tu e hmem he
        cases h : tm tu0.name tu0.input <;> simp [ih]

/-- If some dispatch of the content list raises, not every dispatch
succeeds. -/
theorem dispatchAllOK_false_of_error (tm : ToolManager) (bs : List ContentBlock)
    (tu : ToolUse) (e : String) (htu : tu ∈ toolUses bs)
    (he : tm tu.name tu.input = Except.error e) :
    dispatchAllOK tm bs = false := by
  by_contra h
  have hall : dispatchAllOK tm bs = true := by
    cases hd : dispatchAllOK tm bs
    · exact absurd hd h
    · rfl
  have := (List.all_eq_true.mp hall) tu htu
  rw [he] at this
  simp [exOK] at this

/-- The result list is nonempty whenever the response has a tool-use
block. -/
theorem runTools_ne_nil (tm : ToolManager) (bs : List ContentBlock)
    (hne : toolUses bs ≠ []) : (runTools tm bs).1 ≠ [] := by
  intro h
  apply hne
  have := runTools_map_id tm bs
  rw [h] at this
  cases htu : toolUses bs with
  | nil => rfl
  | cons a l => rw [htu] at this; simp at this

/-- The success flag returned by `_handle_tool_execution_sequential`. -/
theorem handle_snd (tm : ToolManager) (response : ModelResponse) (messages : List Message) :
    (handle_tool_execution_sequential tm response messages).2
      = dispatchAllOK tm response.content := by
  simp only [handle_tool_execution_sequential]
  exact runTools_snd tm response.content

/-! ### Helper lemmas about the round loop -/

/-- The post-loop final call without tools, successful case: its first text
content is returned and one no-tool call is recorded. -/
theorem execLoop_zero_text (provider : Provider) (tm : ToolManager) (sys : String)
    (messages : List Message) (trace : List CallRecord) (disp : List ToolUse)
    (fr : ModelResponse) (t : String) (rest : List ContentBlock)
    (hfr : provider trace.length = Except.ok fr)
    (hcontent : fr.content = ContentBlock.text t :: rest) :
    execLoop provider tm sys 0 messages trace disp
      = LoopOut.mk t messages (trace ++ [CallRecord.mk false sys messages]) disp := by
  simp only [execLoop, hfr, hcontent, firstText]

/-- One loop iteration whose model response requests tool use with every
dispatch succeeding: the loop recurses with the updated chain, one more
tool-enabled call recorded, and the response's tool-use blocks dispatched. -/
theorem execLoop_step_ok (provider : Provider) (tm : ToolManager) (sys : String)
    (fuel : Nat) (messages : List Message) (trace : List CallRecord) (disp : List ToolUse)
    (h : roundOK tm (provider trace.length) = true) :
    ∃ r : ModelResponse, provider trace.length = Except.ok r ∧
      execLoop provider tm sys (fuel + 1) messages trace disp
        = execLoop provider tm sys fuel
            (handle_tool_execution_sequential tm r messages).1
            (trace ++ [CallRecord.mk true sys messages])
            (disp ++ toolUses r.content) := by
  cases hp : provider trace.length with
  | error e => rw [hp] at h; simp [roundOK] at h
  | ok r =>
      rw [hp] at h
      simp only [roundOK, Bool.and_eq_true, beq_iff_eq] at h
      obtain ⟨hstop, hdisp⟩ := h
      refine ⟨r, rfl, ?_⟩
      simp only [execLoop, hp]
      rw [if_neg (by simp [hstop])]
      simp only [handle_snd tm r messages, hdisp, if_true]

/-- One loop iteration whose model response requests tool use but some
dispatch raises: the loop makes one immediate final no-tool call with the
updated chain and returns that call's first text content. -/
theorem execLoop_fail_round (provider : Provider) (tm : ToolManager) (sys : String)
    (fuel : Nat) (messages : List Message) (trace : List CallRecord) (disp : List ToolUse)
    (r : ModelResponse) (hr : provider trace.length = Except.ok r)
    (hstop : r.stop_reason = "tool_use")
    (hfail : dispatchAllOK tm r.content = false)
    (fr : ModelResponse) (t : String) (rest : List ContentBlock)
    (hfr : provider (trace.length + 1) = Except.ok fr)
    (hcontent : fr.content = ContentBlock.text t :: rest) :
    execLoop provider tm sys (fuel + 1) messages trace disp
      = LoopOut.mk t (handle_tool_execution_sequential tm r messages).1
          (trace ++ [CallRecord.mk true sys messages,
                     CallRecord.mk false sys (handle_tool_execution_sequential tm r messages).1])
          (disp ++ toolUses r.content) := by
  simp only [execLoop, hr]
  rw [if_neg (by simp [hstop])]
  simp only [handle_snd tm r messages, hfail, hfr, hcontent, firstText]
  rw [if_neg (by simp)]

/-- Skipping `k` successive all-successful tool rounds: the loop state
advances by `k` calls, all tool-enabled. -/
theorem execLoop_skip (provider : Provider) (tm : ToolManager) (sys : String) :
    ∀ (k fuel : Nat) (messages : List Message) (trace : List CallRecord) (disp : List ToolUse),
    (∀ i, i < k → roundOK tm (provider (trace.length + i)) = true) →
    ∃ (ms' : List Message) (tr' : List CallRecord) (disp' : List ToolUse),
      execLoop provider tm sys (fuel + k) messages trace disp
        = execLoop provider tm sys fuel ms' tr' disp' ∧
      tr'.length = trace.length + k ∧
      tr'.map CallRecord.withTools
        = trace.map CallRecord.withTools ++ List.replicate k true := by
  intro k
  induction k with
  | zero =>
      intro fuel messages trace disp _
      exact ⟨messages, trace, disp, rfl, by simp, by simp⟩
  | succ k ih =>
      intro fuel messages trace disp h
      have h0 : roundOK tm (provider (trace.length + 0)) = true := h 0 (Nat.succ_pos k)
      rw [Nat.add_zero] at h0
      obtain ⟨r, hr, heq⟩ := execLoop_step_ok provider tm sys (fuel + k) messages trace disp h0
      have hlen1 : (trace ++ [CallRecord.mk true sys messages]).length = trace.length + 1 := by
        simp
      have h' : ∀ i, i < k →
          roundOK tm (provider ((trace ++ [CallRecord.mk true sys messages]).length + i))
            = true := by
        intro i hi
        rw [hlen1]
        have := h (i + 1) (Nat.succ_lt_succ hi)
        rwa [show trace.length + (i + 1) = trace.length + 1 + i by omega] at this
      obtain ⟨ms', tr', disp', heq2, hlen, hmap⟩ :=
        ih fuel (handle_tool_execution_sequential tm r messages).1
          (trace ++ [CallRecord.mk true sys messages]) (disp ++ toolUses r.content) h'
      refine ⟨ms', tr', disp', ?_, ?_, ?_⟩
      · rw [show fuel + (k + 1) = fuel + k + 1 by omega, heq, heq2]
      · rw [hlen, hlen1]; omega
      · rw [hmap]
        simp [List.replicate_succ, List.append_assoc]

/-- Splitting membership in a trace extended by fresh records that all carry
the system string `sys`. -/
theorem mem_append_records {sys : String} {c : CallRecord} {trace ext : List CallRecord}
    (h : c ∈ trace ++ ext) (hext : ∀ d ∈ ext, d.system = sys) :
    c ∈ trace ∨ c.system = sys := by
  rcases List.mem_append.mp h with h1 | h2
  · exact Or.inl h1
  · exact Or.inr (hext c h2)

/-- Every model call recorded by the round loop carries the system string
the loop was given. -/
theorem execLoop_system_inv (provider : Provider) (tm : ToolManager) (sys : String) :
    ∀ (fuel : Nat) (messages : List Message) (trace : List CallRecord)
      (disp : List ToolUse) (c : CallRecord),
    c ∈ (execLoop provider tm sys fuel messages trace disp).trace →
    c ∈ trace ∨ c.system = sys := by
  intro fuel
  induction fuel with
  | zero =>
      intro messages trace disp c hc
      simp only [execLoop] at hc
      cases hp : provider trace.length with
      | error e =>
          simp only [hp] at hc
          exact mem_append_records hc (by simp)
      | ok fr =>
          simp only [hp] at hc
          cases hft : firstText fr.content <;> simp only [hft] at hc <;>
            exact mem_append_records hc (by simp)
  | succ fuel ih =>
      intro messages trace disp c hc
      simp only [execLoop] at hc
      cases hp : provider trace.length with
      | error e =>
          simp only [hp] at hc
          exact mem_append_records hc (by simp)
      | ok r =>
          simp only [hp] at hc
          by_cases hstop : r.stop_reason = "tool_use"
          · rw [if_neg (by simp [hstop])] at hc
            cases hsucc : (handle_tool_execution_sequential tm r messages).2 <;>
              rw [hsucc] at hc
            · rw [if_neg (by simp)] at hc
              cases hp2 : provider (trace.length + 1) <;> simp only [hp2] at hc
              · exact mem_append_records hc (by simp)
              · rename_i fr
                cases hft : firstText fr.content <;> simp only [hft] at hc <;>
                  exact mem_append_records hc (by simp)
            · rw [if_pos rfl] at hc
              rcases ih _ _ _ c hc with hmem | hs
              · exact mem_append_records hmem (by simp)
              · exact Or.inr hs
          · rw [if_pos hstop] at hc
            cases hft : firstText r.content <;> simp only [hft] at hc <;>
              exact mem_append_records hc (by simp)

/-- The post-loop final call without tools, failing case: the final
try/except returns the final-response error string. -/
theorem execLoop_zero_error (provider : Provider) (tm : ToolManager) (sys : String)
    (messages : List Message) (trace : List CallRecord) (disp : List ToolUse)
    (e : String) (he : provider trace.length = Except.error e) :
    execLoop provider tm sys 0 messages trace disp
      = LoopOut.mk ("Error generating final response: " ++ e) messages
          (trace ++ [CallRecord.mk false sys messages]) disp := by
  simp only [execLoop, he]

/-- A loop iteration whose model call raises: the iteration's try/except
returns the in-round error string. -/
theorem execLoop_round_provider_error (provider : Provider) (tm : ToolManager)
    (sys : String) (fuel : Nat) (messages : List Message) (trace : List CallRecord)
    (disp : List ToolUse) (e : String) (he : provider trace.length = Except.error e) :
    execLoop provider tm sys (fuel + 1) messages trace disp
      = LoopOut.mk ("Error generating response: " ++ e) messages
          (trace ++ [CallRecord.mk true sys messages]) disp := by
  simp only [execLoop, he]

/-- A round with a failed tool dispatch records exactly one more (no-tool)
model call whose `messages` parameter is the chain updated by
`_handle_tool_execution_sequential`, whatever that final call returns. -/
theorem execLoop_fail_round_trace (provider : Provider) (tm : ToolManager) (sys : String)
    (fuel : Nat) (messages : List Message) (trace : List CallRecord) (disp : List ToolUse)
    (r : ModelResponse) (hr : provider trace.length = Except.ok r)
    (hstop : r.stop_reason = "tool_use")
    (hfail : dispatchAllOK tm r.content = false) :
    (execLoop provider tm sys (fuel + 1) messages trace disp).trace
      = trace ++ [CallRecord.mk true sys messages,
          CallRecord.mk false sys
            (handle_tool_execution_sequential tm r messages).1] := by
  simp only [execLoop, hr]
  rw [if_neg (by simp [hstop])]
  simp only [handle_snd tm r messages, hfail]
  rw [if_neg (by simp)]
  cases hp2 : provider (trace.length + 1) with
  | error e => rfl
  | ok fr => cases hft : firstText fr.content <;> simp only [hft]

/-! ### Claim theorems -/

/-- C4: for every call in which no tool list or no tool manager is supplied
(or the tool list is empty), exactly one model call is made, that call
carries no tools parameter, and its first text content is returned verbatim
as the answer. -/
theorem C4_degenerate_single_call (provider : Provider) (query : String)
    (hist : Option String) (tools : List String) (tmgr : Option ToolManager)
    (max_rounds : Int) (hdeg : tools = [] ∨ tmgr = none)
    (r : ModelResponse) (t : String) (rest : List ContentBlock)
    (hr : provider 0 = Except.ok r)
    (hcontent : r.content = ContentBlock.text t :: rest) :
    generate_response provider query hist tools tmgr max_rounds
      = Except.ok (LoopOut.mk t [Message.mk "user" (MContent.ofText query)]
          [CallRecord.mk false (build_system hist)
            [Message.mk "user" (MContent.ofText query)]] []) := by
  cases tmgr with
  | none =>
      cases tools <;> simp only [generate_response, hr, hcontent, firstText]
  | some tm =>
      cases tools with
      | nil => simp only [generate_response, hr, hcontent, firstText]
      | cons a l =>
          rcases hdeg with h | h
          · exact absurd h (by simp)
          · exact absurd h (by simp)

/-- C4 witness: a concrete call with no tool list and no tool manager. -/
theorem C4_witness :
    generate_response provText "q" none [] none 2
      = Except.ok (LoopOut.mk "final answer" [Message.mk "user" (MContent.ofText "q")]
          [CallRecord.mk false SYSTEM_PROMPT [Message.mk "user" (MContent.ofText "q")]] []) :=
  C4_degenerate_single_call provText "q" none [] none 2 (Or.inl rfl)
    respText "final answer" [] rfl rfl

/-- C5: for every call in which the first round's model response has
stop_reason different from tool_use, no tool is ever dispatched
(`dispatched = []`), round_count stays at 1 (exactly one model call is
recorded), and that response's first text content is returned immediately. -/
theorem C5_fast_exit_first_round (provider : Provider) (tm : ToolManager)
    (query : String) (hist : Option String) (tools : List String)
    (max_rounds : Int) (htools : tools ≠ []) (hpos : 1 ≤ max_rounds)
    (r : ModelResponse) (t : String) (rest : List ContentBlock)
    (hr : provider 0 = Except.ok r) (hstop : r.stop_reason ≠ "tool_use")
    (hcontent : r.content = ContentBlock.text t :: rest) :
    generate_response provider query hist tools (some tm) max_rounds
      = Except.ok (LoopOut.mk t [Message.mk "user" (MContent.ofText query)]
          [CallRecord.mk true (build_system hist)
            [Message.mk "user" (MContent.ofText query)]] []) := by
  cases tools with
  | nil => exact absurd rfl htools
  | cons a l =>
      simp only [generate_response, execute_sequential_rounds]
      obtain ⟨f, hf⟩ : ∃ f, max_rounds.toNat = f + 1 :=
        ⟨max_rounds.toNat - 1, by omega⟩
      rw [hf]
      simp only [execLoop, List.length_nil, hr]
      rw [if_pos hstop]
      simp only [hcontent, firstText, List.nil_append]

/-- C5 witness: a concrete two-round budget where the first response is
plain text. -/
theorem C5_witness :
    generate_response provText "q" none ["search_course_content"] (some tmOK) 2
      = Except.ok (LoopOut.mk "final answer" [Message.mk "user" (MContent.ofText "q")]
          [CallRecord.mk true SYSTEM_PROMPT [Message.mk "user" (MContent.ofText "q")]] []) :=
  C5_fast_exit_first_round provText tmOK "q" none ["search_course_content"] 2
    (by simp) (by decide) respText "final answer" [] rfl (by decide) rfl

/-- C1: for every call with a non-empty tool list and tool manager in which
the model's response in every round up to round_budget has stop_reason
tool_use and every tool dispatch succeeds, the loop makes exactly
round_budget tool-enabled model calls followed by exactly one final model
call without tools (total model calls = round_budget + 1), and the final
call's text is returned. -/
theorem C1_budget_exhaustion (provider : Provider) (tm : ToolManager)
    (query : String) (hist : Option String) (tools : List String) (n : Nat)
    (htools : tools ≠ [])
    (hrounds : ∀ i, i < n → roundOK tm (provider i) = true)
    (fr : ModelResponse) (t : String) (rest : List ContentBlock)
    (hfr : provider n = Except.ok fr)
    (hcontent : fr.content = ContentBlock.text t :: rest) :
    ∃ out : LoopOut,
      generate_response provider query hist tools (some tm) (n : Int)
        = Except.ok out ∧
      out.text = t ∧
      out.trace.map CallRecord.withTools = List.replicate n true ++ [false] := by
  cases tools with
  | nil => exact absurd rfl htools
  | cons a l =>
      simp only [generate_response, execute_sequential_rounds]
      have htn : ((n : Int)).toNat = n := by omega
      rw [htn]
      obtain ⟨ms', tr', disp', heq, hlen, hmap⟩ :=
        execLoop_skip provider tm (build_system hist) n 0
          [Message.mk "user" (MContent.ofText query)] [] []
          (by intro i hi; simpa using hrounds i hi)
      rw [show n = 0 + n by omega, heq]
      have hlen' : tr'.length = n := by simpa using hlen
      rw [execLoop_zero_text provider tm (build_system hist) ms' tr' disp' fr t rest
        (by rw [hlen']; exact hfr) hcontent]
      refine ⟨_, rfl, rfl, ?_⟩
      simp only [List.map_append, hmap]
      simp

/-- C1 witness: budget 2, both rounds request tool use with a successful
dispatch, call 3 is the final no-tool call whose text is returned. -/
theorem C1_witness :
    ∃ out : LoopOut,
      generate_response provTT "q" none ["search_course_content"] (some tmOK)
          (((2 : Nat)) : Int)
        = Except.ok out ∧
      out.text = "final answer" ∧
      out.trace.map CallRecord.withTools = List.replicate 2 true ++ [false] :=
  C1_budget_exhaustion provTT tmOK "q" none ["search_course_content"] 2
    (by simp) (by decide) respText "final answer" [] rfl rfl

/-- C2: for every call in which some tool dispatch within a round raises,
the loop makes exactly one more model call with no tools and returns that
call's text immediately, even when round_count is still strictly below
round_budget; no further tool-enabled round is executed after the failure
(the trace is exactly k+1 tool-enabled calls then one no-tool call). -/
theorem C2_tool_failure_early_final (provider : Provider) (tm : ToolManager)
    (query : String) (hist : Option String) (tools : List String) (n k : Nat)
    (htools : tools ≠ []) (hk : k < n)
    (hrounds : ∀ i, i < k → roundOK tm (provider i) = true)
    (r : ModelResponse) (hr : provider k = Except.ok r)
    (hstop : r.stop_reason = "tool_use")
    (hfail : dispatchAllOK tm r.content = false)
    (fr : ModelResponse) (t : String) (rest : List ContentBlock)
    (hfr : provider (k + 1) = Except.ok fr)
    (hcontent : fr.content = ContentBlock.text t :: rest) :
    ∃ out : LoopOut,
      generate_response provider query hist tools (some tm) (n : Int)
        = Except.ok out ∧
      out.text = t ∧
      out.trace.map CallRecord.withTools
        = List.replicate (k + 1) true ++ [false] := by
  cases tools with
  | nil => exact absurd rfl htools
  | cons a l =>
      simp only [generate_response, execute_sequential_rounds]
      have htn : ((n : Int)).toNat = n := by omega
      rw [htn]
      obtain ⟨ms', tr', disp', heq, hlen, hmap⟩ :=
        execLoop_skip provider tm (build_system hist) k (n - k - 1 + 1)
          [Message.mk "user" (MContent.ofText query)] [] []
          (by intro i hi; simpa using hrounds i hi)
      rw [show n = (n - k - 1 + 1) + k by omega, heq]
      have hlen' : tr'.length = k := by simpa using hlen
      rw [execLoop_fail_round provider tm (build_system hist) (n - k - 1) ms' tr' disp' r
        (by rw [hlen']; exact hr) hstop hfail fr t rest
        (by rw [hlen']; exact hfr) hcontent]
      refine ⟨_, rfl, rfl, ?_⟩
      simp only [List.map_append, hmap]
      simp [List.replicate_succ', List.append_assoc]

/-- C2 witness: budget 2, the first round's single dispatch raises, the
loop makes one no-tool call and returns its text after 2 total calls. -/
theorem C2_witness :
    ∃ out : LoopOut,
      generate_response provT1 "q" none ["search_course_content"] (some tmFail)
          (((2 : Nat)) : Int)
        = Except.ok out ∧
      out.text = "final answer" ∧
      out.trace.map CallRecord.withTools
        = List.replicate (0 + 1) true ++ [false] :=
  C2_tool_failure_early_final provT1 tmFail "q" none ["search_course_content"] 2 0
    (by simp) (by decide) (by decide) respTool rfl rfl (by decide)
    respText "final answer" [] rfl rfl

/-- C9: for every call with a non-empty tool list and tool manager but a
round budget less than or equal to zero, the round loop body never executes:
exactly one model call is made, it carries no tools parameter and dispatches
nothing, and its text is returned (or an error string if that single call
fails). -/
theorem C9_nonpositive_budget (provider : Provider) (tm : ToolManager)
    (query : String) (hist : Option String) (tools : List String)
    (max_rounds : Int) (htools : tools ≠ []) (hnp : max_rounds ≤ 0) :
    ∃ out : LoopOut,
      generate_response provider query hist tools (some tm) max_rounds
        = Except.ok out ∧
      out.trace.map CallRecord.withTools = [false] ∧
      out.dispatched = [] ∧
      (∀ r t rest, provider 0 = Except.ok r →
        r.content = ContentBlock.text t :: rest → out.text = t) ∧
      (∀ e, provider 0 = Except.error e →
        out.text = "Error generating final response: " ++ e) := by
  cases tools with
  | nil => exact absurd rfl htools
  | cons a l =>
      simp only [generate_response, execute_sequential_rounds]
      have htn : max_rounds.toNat = 0 := by omega
      rw [htn]
      cases hp : provider 0 with
      | error e =>
          simp only [execLoop, List.length_nil, hp]
          refine ⟨_, rfl, by simp, rfl, ?_, ?_⟩
          · intro r t rest h1 _
            exact absurd h1 (by simp)
          · intro e' h1
            injection h1 with h1
            rw [h1]
      | ok fr =>
          simp only [execLoop, List.length_nil, hp]
          cases hft : firstText fr.content with
          | error e =>
              simp only [hft]
              refine ⟨_, rfl, by simp, rfl, ?_, ?_⟩
              · intro r t rest h1 h2
                injection h1 with h1
                rw [h1, h2] at hft
                simp [firstText] at hft
              · intro e' h1
                exact absurd h1 (by simp)
          | ok t =>
              simp only [hft]
              refine ⟨_, rfl, by simp, rfl, ?_, ?_⟩
              · intro r t' rest h1 h2
                injection h1 with h1
                rw [h1, h2] at hft
                simp only [firstText] at hft
                injection hft with hft
                exact hft.symm
              · intro e' h1
                exact absurd h1 (by simp)

/-- C9 witness: budget 0 with tools and a manager supplied makes exactly
one no-tool call and returns its text. -/
theorem C9_witness :
    ∃ out : LoopOut,
      generate_response provText "q" none ["search_course_content"] (some tmOK) 0
        = Except.ok out ∧
      out.trace.map CallRecord.withTools = [false] ∧
      out.dispatched = [] ∧
      (∀ r t rest, provText 0 = Except.ok r →
        r.content = ContentBlock.text t :: rest → out.text = t) ∧
      (∀ e, provText 0 = Except.error e →
        out.text = "Error generating final response: " ++ e) :=
  C9_nonpositive_budget provText tmOK "q" none ["search_course_content"] 0
    (by simp) (by decide)

/-- C6: for every round whose model response requests tool use (with
pairwise-distinct tool-use ids), every ToolUseBlock in that response is
answered by exactly one ToolResultBlock whose tool_use_id matches that
block's id, and all those ToolResultBlocks are appended to the chain as a
single user message following the appended assistant message (the chain the
next model call of that invocation receives). -/
theorem C6_tool_use_answered (tm : ToolManager) (response : ModelResponse)
    (messages : List Message)
    (hne : toolUses response.content ≠ [])
    (hnd : ((toolUses response.content).map ToolUse.id).Nodup) :
    ∃ rs : List ToolResult,
      (handle_tool_execution_sequential tm response messages).1
        = messages ++ [Message.mk "assistant" (MContent.blocks response.content),
                       Message.mk "user" (MContent.toolResults rs)] ∧
      rs.map ToolResult.tool_use_id = (toolUses response.content).map ToolUse.id ∧
      ∀ tu ∈ toolUses response.content,
        rs.countP (fun x => x.tool_use_id == tu.id) = 1 := by
  refine ⟨(runTools tm response.content).1, ?_,
    runTools_map_id tm response.content, ?_⟩
  · simp only [handle_tool_execution_sequential]
    rw [if_neg (runTools_ne_nil tm response.content hne)]
    simp [List.append_assoc]
  · intro tu htu
    have h1 : (runTools tm response.content).1.countP (fun x => x.tool_use_id == tu.id)
        = ((runTools tm response.content).1.map ToolResult.tool_use_id).countP
            (fun s => s == tu.id) := by
      rw [List.countP_map]
      rfl
    rw [h1, runTools_map_id tm response.content]
    exact List.count_eq_one_of_mem hnd (List.mem_map_of_mem ToolUse.id htu)

/-- C6 witness: one tool-use block, answered by exactly one matching
tool result in a single appended user message. -/
theorem C6_witness :
    ∃ rs : List ToolResult,
      (handle_tool_execution_sequential tmOK respTool
          [Message.mk "user" (MContent.ofText "q")]).1
        = [Message.mk "user" (MContent.ofText "q")]
            ++ [Message.mk "assistant" (MContent.blocks respTool.content),
                Message.mk "user" (MContent.toolResults rs)] ∧
      rs.map ToolResult.tool_use_id = (toolUses respTool.content).map ToolUse.id ∧
      ∀ tu ∈ toolUses respTool.content,
        rs.countP (fun x => x.tool_use_id == tu.id) = 1 :=
  C6_tool_use_answered tmOK respTool [Message.mk "user" (MContent.ofText "q")]
    (by decide) (by decide)

/-- C10: for every round, the assistant message appended to the message
chain contains exactly the model response's full ordered content-block
sequence unchanged (non-tool_use blocks included), immediately after the
previously appended messages, which are all left unmodified. -/
theorem C10_assistant_frame (tm : ToolManager) (response : ModelResponse)
    (messages : List Message) :
    ∃ tail : List Message,
      (handle_tool_execution_sequential tm response messages).1
        = messages
            ++ Message.mk "assistant" (MContent.blocks response.content) :: tail := by
  simp only [handle_tool_execution_sequential]
  by_cases h : (runTools tm response.content).1 = []
  · exact ⟨[], by rw [if_pos h]⟩
  · refine ⟨[Message.mk "user" (MContent.toolResults (runTools tm response.content).1)], ?_⟩
    rw [if_neg h]
    simp [List.append_assoc]

/-- C7 counterexample: a dispatch whose handler raises is captured as a
tool_result whose content is the error string, but the code builds the
result dict without any is_error key (`is_error = none`), so the block is
not marked is_error as the claim states. -/
theorem C7_counterexample :
    (runTools tmFail [ContentBlock.toolUse tuA]).1
      = [ToolResult.mk "toolu_01" "Tool execution failed: backend unreachable" none] := by
  decide

/-- C7 (amended): for every tool dispatch whose handler raises (including
dispatch of an unregistered tool name), the failure does not crash the loop:
it is captured as a ToolResultBlock whose content is an error string (with
no is_error marking), and that block is part of the user message in the
chain passed to the subsequent (final, no-tool) model call. -/
theorem C7_amended_error_result_reported (provider : Provider) (tm : ToolManager)
    (query : String) (hist : Option String) (tools : List String) (n : Nat)
    (htools : tools ≠ []) (hn : 0 < n)
    (r : ModelResponse) (hr : provider 0 = Except.ok r)
    (hstop : r.stop_reason = "tool_use")
    (tu : ToolUse) (e : String) (htu : tu ∈ toolUses r.content)
    (he : tm tu.name tu.input = Except.error e) :
    ∃ (out : LoopOut) (rs : List ToolResult) (c0 c1 : CallRecord),
      generate_response provider query hist tools (some tm) (n : Int)
        = Except.ok out ∧
      out.trace = [c0, c1] ∧ c0.withTools = true ∧ c1.withTools = false ∧
      Message.mk "user" (MContent.toolResults rs) ∈ c1.messages ∧
      ToolResult.mk tu.id ("Tool execution failed: " ++ e) none ∈ rs := by
  cases tools with
  | nil => exact absurd rfl htools
  | cons a l =>
      simp only [generate_response, execute_sequential_rounds]
      have htn : ((n : Int)).toNat = n := by omega
      rw [htn, show n = (n - 1) + 1 by omega]
      have hfail : dispatchAllOK tm r.content = false :=
        dispatchAllOK_false_of_error tm r.content tu e htu he
      set sys := build_system hist
      set msgs0 := [Message.mk "user" (MContent.ofText query)]
      have htr := execLoop_fail_round_trace provider tm sys (n - 1) msgs0 [] [] r
        (by simpa using hr) hstop hfail
      have hne : toolUses r.content ≠ [] := List.ne_nil_of_mem htu
      have hrs : (runTools tm r.content).1 ≠ [] := runTools_ne_nil tm r.content hne
      refine ⟨_, (runTools tm r.content).1,
        CallRecord.mk true sys msgs0,
        CallRecord.mk false sys (handle_tool_execution_sequential tm r msgs0).1,
        rfl, by simpa using htr, rfl, rfl, ?_, ?_⟩
      · simp only [handle_tool_execution_sequential]
        rw [if_neg hrs]
        simp
      · exact runTools_mem_error tm r.content tu e htu he

/-- C7 witness: a single failing dispatch in a one-round budget. -/
theorem C7_witness :
    ∃ (out : LoopOut) (rs : List ToolResult) (c0 c1 : CallRecord),
      generate_response provT1 "q" none ["search_course_content"] (some tmFail)
          (((1 : Nat)) : Int)
        = Except.ok out ∧
      out.trace = [c0, c1] ∧ c0.withTools = true ∧ c1.withTools = false ∧
      Message.mk "user" (MContent.toolResults rs) ∈ c1.messages ∧
      ToolResult.mk tuA.id ("Tool execution failed: " ++ "backend unreachable") none ∈ rs :=
  C7_amended_error_result_reported provT1 tmFail "q" none ["search_course_content"] 1
    (by simp) (by decide) respTool rfl rfl tuA "backend unreachable" (by decide) rfl

/-- C3 counterexample: on the degenerate tool-free path (no tool list and
no tool manager), a failing model call propagates as a raised exception
(`Except.error`) past the orchestration boundary instead of being returned
as a descriptive error string, because `generate_response`'s fallback path
has no try/except. -/
theorem C3_counterexample :
    generate_response provFail "q" none [] none 2
      = Except.error "connection error" := rfl

/-- C3 (amended): within the tool-enabled path
(`_execute_sequential_rounds`), any failure of a model-call step makes the
whole call return a descriptive error string rather than raising, at any
round — round k while the budget is open yields the in-round error string,
the post-budget final call yields the final-response error string; the
degenerate tool-free path, however, propagates the exception. -/
theorem C3_amended_error_string_tool_path (provider : Provider) (tm : ToolManager)
    (query : String) (hist : Option String) (tools : List String) (n k : Nat)
    (htools : tools ≠ []) (hk : k ≤ n)
    (hrounds : ∀ i, i < k → roundOK tm (provider i) = true)
    (e : String) (he : provider k = Except.error e) :
    ∃ out : LoopOut,
      generate_response provider query hist tools (some tm) (n : Int)
        = Except.ok out ∧
      out.text = (if k < n then "Error generating response: "
                  else "Error generating final response: ") ++ e := by
  cases tools with
  | nil => exact absurd rfl htools
  | cons a l =>
      simp only [generate_response, execute_sequential_rounds]
      have htn : ((n : Int)).toNat = n := by omega
      rw [htn]
      obtain ⟨ms', tr', disp', heq, hlen, hmap⟩ :=
        execLoop_skip provider tm (build_system hist) k (n - k)
          [Message.mk "user" (MContent.ofText query)] [] []
          (by intro i hi; simpa using hrounds i hi)
      rw [show n = (n - k) + k by omega, heq]
      have hlen' : tr'.length = k := by simpa using hlen
      by_cases hkn : k < n
      · obtain ⟨f, hf⟩ : ∃ f, n - k = f + 1 := ⟨n - k - 1, by omega⟩
        rw [hf, execLoop_round_provider_error provider tm (build_system hist) f ms' tr'
          disp' e (by rw [hlen']; exact he)]
        exact ⟨_, rfl, by rw [if_pos (show k < f + 1 + k by omega)]⟩
      · have hf : n - k = 0 := by omega
        rw [hf, execLoop_zero_error provider tm (build_system hist) ms' tr' disp' e
          (by rw [hlen']; exact he)]
        exact ⟨_, rfl, by rw [if_neg (show ¬ k < 0 + k by omega)]⟩

/-- C3 witness: the first model call of a tool-enabled two-round budget
raises; the call returns the in-round error string. -/
theorem C3_witness :
    ∃ out : LoopOut,
      generate_response provFail "q" none ["search_course_content"] (some tmOK)
          (((2 : Nat)) : Int)
        = Except.ok out ∧
      out.text = (if 0 < 2 then "Error generating response: "
                  else "Error generating final response: ") ++ "connection error" :=
  C3_amended_error_string_tool_path provFail tmOK "q" none ["search_course_content"] 2 0
    (by simp) (by decide) (by decide) "connection error" rfl

/-- C8: for every call, the system instruction string is built once as
`build_system`: it equals the static base instruction when the history text
is absent or empty, equals the base instruction with a labeled
previous-conversation section containing the history text verbatim when the
history text is non-empty, and that same string is recorded as the system
parameter of every model call of the invocation. -/
theorem C8_system_instruction (provider : Provider) (query : String)
    (hist : Option String) (tools : List String) (tmgr : Option ToolManager)
    (max_rounds : Int) (out : LoopOut)
    (hout : generate_response provider query hist tools tmgr max_rounds
      = Except.ok out) :
    (∀ c ∈ out.trace, c.system = build_system hist) ∧
    build_system none = SYSTEM_PROMPT ∧
    build_system (some "") = SYSTEM_PROMPT ∧
    (∀ h : String, h ≠ "" →
      build_system (some h)
        = SYSTEM_PROMPT ++ "\n\nPrevious conversation:\n" ++ h) := by
  refine ⟨?_, rfl, rfl, ?_⟩
  · intro c hc
    cases tmgr with
    | some tm =>
        cases tools with
        | cons a l =>
            simp only [generate_response, execute_sequential_rounds] at hout
            injection hout with hout
            rw [← hout] at hc
            rcases execLoop_system_inv provider tm (build_system hist) _ _ _ _ c hc with
              hmem | hs
            · exact absurd hmem (by simp)
            · exact hs
        | nil =>
            simp only [generate_response] at hout
            cases hp : provider 0 with
            | error e =>
                simp only [hp] at hout
                exact absurd hout (by simp)
            | ok r =>
                simp only [hp] at hout
                cases hft : firstText r.content with
                | error e =>
                    simp only [hft] at hout
                    exact absurd hout (by simp)
                | ok t =>
                    simp only [hft] at hout
                    injection hout with hout
                    rw [← hout] at hc
                    simp only [LoopOut.trace] at hc
                    rcases List.mem_singleton.mp hc with h
                    rw [h]
    | none =>
        simp only [generate_response] at hout
        cases hp : provider 0 with
        | error e =>
            simp only [hp] at hout
            exact absurd hout (by simp)
        | ok r =>
            simp only [hp] at hout
            cases hft : firstText r.content with
            | error e =>
                simp only [hft] at hout
                exact absurd hout (by simp)
            | ok t =>
                simp only [hft] at hout
                injection hout with hout
                rw [← hout] at hc
                simp only [LoopOut.trace] at hc
                rcases List.mem_singleton.mp hc with h
                rw [h]
  · intro h hne
    simp only [build_system]
    rw [if_pos hne]

/-- C8 witness: a call with non-empty history text; its single model call
records the base instruction with the labeled history section. -/
theorem C8_witness :
    (∀ c ∈ (LoopOut.mk "final answer" [Message.mk "user" (MContent.ofText "q")]
        [CallRecord.mk false (build_system (some "earlier"))
          [Message.mk "user" (MContent.ofText "q")]] []).trace,
      c.system = build_system (some "earlier")) ∧
    build_system none = SYSTEM_PROMPT ∧
    build_system (some "") = SYSTEM_PROMPT ∧
    (∀ h : String, h ≠ "" →
      build_system (some h)
        = SYSTEM_PROMPT ++ "\n\nPrevious conversation:\n" ++ h) :=
  C8_system_instruction provText "q" (some "earlier") [] none 2
    (LoopOut.mk "final answer" [Message.mk "user" (MContent.ofText "q")]
      [CallRecord.mk false (build_system (some "earlier"))
        [Message.mk "user" (MContent.ofText "q")]] []) rfl

end AIGen
